import Mathlib

/-!
Verification development for the `data_utils.py` extraction module of the
wkf-kata-machine-learning repository.

The Python module scrapes tournament bracket pages: `category_data` parses a
category page header and collects pool tables, `get_round_performances`
walks the result rows of each pool table and builds performance records,
`get_rounds_urls` collects the kata category links of an event page, and
`get_performances` / `concat_tournaments` aggregate records across rounds
and events.

Modelling choices (shallow embedding):
* An HTML document is a `Node` tree.  `findAll` models BeautifulSoup's
  `find_all(tag, {"class": [...]})` (all strict descendants in document
  order; a class query matches when the element carries any of the queried
  classes), `nodeText` models `.text` (concatenation of all descendant
  strings) and `Node.attr?` models attribute access.
* Network fetching and HTML parsing are external collaborators; they are
  abstracted as an oracle `fetch : String → Node` giving the parsed page
  for a URL, and file reading as `readFile : String → String`.
* Python exceptions are modelled with `Except PyErr`; list indexing,
  attribute lookup and `float()` conversion return `Except` values.
* Python `float` values are modelled as `Rat`; `pyFloat` models the
  decimal-literal fragment of Python's `float()` (optional sign, digits
  with an optional dot), which is the fragment exercised by these pages.
* `pandas.concat` is modelled by `pdConcat`; per pandas' documented
  behaviour it raises `ValueError` on an empty list of frames, and for the
  homogeneous records produced here concatenation is list concatenation.
-/

/-- Python exception kinds that the embedded code can raise. -/
inductive PyErr where
  | indexError
  | valueError
  | keyError
deriving DecidableEq, Repr

/-- An HTML node: either a text fragment or an element with a tag, a list
of CSS classes, further attributes, and child nodes. -/
inductive Node where
  | textN (s : String)
  | elem (tag : String) (classes : List String) (attrs : List (String × String)) (children : List Node)

/-- Does a node match a BeautifulSoup query `find_all(tag, {"class": cls})`?
With `cls = none` only the tag is checked; with `cls = some l` the element
must carry at least one of the classes in `l`. -/
def matchesQ (tag : String) (cls : Option (List String)) : Node → Bool
  | .textN _ => false
  | .elem t cs _ _ =>
      t == tag && (match cls with
        | none => true
        | some l => l.any (fun c => cs.contains c))

mutual

/-- All strict descendants of a node matching the query, in document order. -/
def findAllN (tag : String) (cls : Option (List String)) : Node → List Node
  | .textN _ => []
  | .elem _ _ _ ch => findAllL tag cls ch

/-- All members of a forest (and their descendants) matching the query. -/
def findAllL (tag : String) (cls : Option (List String)) : List Node → List Node
  | [] => []
  | n :: ns =>
      (if matchesQ tag cls n then [n] else []) ++ findAllN tag cls n ++ findAllL tag cls ns

end

/-- BeautifulSoup `node.find_all(tag, {"class": cls})`. -/
def findAll (n : Node) (tag : String) (cls : Option (List String)) : List Node :=
  findAllN tag cls n

mutual

/-- BeautifulSoup `.text`: concatenation of all descendant text fragments. -/
def nodeText : Node → String
  | .textN s => s
  | .elem _ _ _ ch => listText ch

/-- Text of a forest of nodes. -/
def listText : List Node → String
  | [] => ""
  | n :: ns => nodeText n ++ listText ns

end

/-- Attribute lookup on an element (`node["key"]` before the KeyError check). -/
def Node.attr? (n : Node) (k : String) : Option String :=
  match n with
  | .textN _ => none
  | .elem _ _ attrs _ => attrs.lookup k

/-- Python `node["key"]`: a missing attribute raises `KeyError`. -/
def pyAttr (n : Node) (k : String) : Except PyErr String :=
  match n.attr? k with
  | some v => .ok v
  | none => .error .keyError

/-- Python nonnegative list indexing `l[i]`: out of range raises `IndexError`. -/
def pyIndex {α : Type} (l : List α) (i : Nat) : Except PyErr α :=
  match l.get? i with
  | some a => .ok a
  | none => .error .indexError

/-- Python `l[-1]`: the last element; empty list raises `IndexError`. -/
def pyLast {α : Type} (l : List α) : Except PyErr α :=
  match l.getLast? with
  | some a => .ok a
  | none => .error .indexError

/-- Python slice `l[a:b]` with `0 ≤ a ≤ b` (clamped to the list length). -/
def pySlice {α : Type} (l : List α) (a b : Nat) : List α :=
  (l.drop a).take (b - a)

/-- Python string slice `s[:-k]`: drop the final `k` characters (clamped). -/
def pyDropLast (s : String) (k : Nat) : String :=
  ⟨s.data.take (s.data.length - k)⟩

/-- Is `pat` a contiguous substring of `l`?  Models Python's `in` on strings. -/
def hasSubstr (pat : List Char) : List Char → Bool
  | [] => pat.isEmpty
  | c :: r => pat.isPrefixOf (c :: r) || hasSubstr pat r

/-- Python `pat in s` for strings. -/
def pyIn (pat s : String) : Bool :=
  hasSubstr pat.data s.data

/-- Split at the last occurrence of `sep`, returning the parts before and
after it, or `none` when `sep` does not occur. -/
def rsplitList (sep : List Char) : List Char → Option (List Char × List Char)
  | [] => none
  | c :: r =>
      match rsplitList sep r with
      | some (a, b) => some (c :: a, b)
      | none =>
          if sep.isPrefixOf (c :: r) then some ([], (c :: r).drop sep.length) else none

/-- Python `s.rsplit(sep, 1)`: one or two parts, split at the last
occurrence of `sep`. -/
def rsplit1 (s sep : String) : List String :=
  match rsplitList sep.data s.data with
  | none => [s]
  | some (a, b) => [⟨a⟩, ⟨b⟩]

/-- Python `s.splitlines()` for newline-separated content: no entry for a
trailing newline, and no entry at all for the empty string. -/
def pySplitlines (s : String) : List String :=
  if s = "" then []
  else if s.data.getLast? = some '\n' then (pyDropLast s 1).splitOn "\n"
  else s.splitOn "\n"

/-- All characters are decimal digits. -/
def allDigits (l : List Char) : Bool :=
  l.all Char.isDigit

/-- Value of a digit string. -/
def digitsVal (l : List Char) : Nat :=
  l.foldl (fun a c => 10 * a + (c.toNat - 48)) 0

/-- Unsigned decimal literal: `D+`, `D+.D*`, `D*.D+`.  Returns the value as
a numerator/denominator pair `(n, d)` meaning `n / d`, with `d` the power of
ten given by the fractional digits. -/
def parseUnsignedND? (l : List Char) : Option (Nat × Nat) :=
  if l.any (fun c => c == '.') then
    (if allDigits (l.takeWhile (fun c => c != '.')) &&
        allDigits ((l.dropWhile (fun c => c != '.')).tail) &&
        decide (0 < (l.takeWhile (fun c => c != '.')).length +
                    ((l.dropWhile (fun c => c != '.')).tail).length) then
       some (digitsVal (l.takeWhile (fun c => c != '.')) *
               10 ^ ((l.dropWhile (fun c => c != '.')).tail).length +
               digitsVal ((l.dropWhile (fun c => c != '.')).tail),
             10 ^ ((l.dropWhile (fun c => c != '.')).tail).length)
     else none)
  else if allDigits l && decide (l ≠ []) then some (digitsVal l, 1) else none

/-- The decimal-literal fragment of Python `float(s)`: optional sign, then
an unsigned decimal literal. -/
def parseFloat? (s : String) : Option Rat :=
  match s.data with
  | [] => none
  | c :: r =>
      if c = '-' then (parseUnsignedND? r).map (fun p => mkRat (-(p.1 : Int)) p.2)
      else if c = '+' then (parseUnsignedND? r).map (fun p => mkRat (p.1 : Int) p.2)
      else (parseUnsignedND? (c :: r)).map (fun p => mkRat (p.1 : Int) p.2)

/-- Python `float(s)`: an unparsable string raises `ValueError`. -/
def pyFloat (s : String) : Except PyErr Rat :=
  match parseFloat? s with
  | some q => .ok q
  | none => .error .valueError

/-- Python `s.replace(",", ".")`. -/
def commaToDot (s : String) : String :=
  ⟨s.data.map (fun c => if c = ',' then '.' else c)⟩

/-- The grade-cell conversion of `data_utils.py` line 88:
`float(i.replace(",", "."))`. -/
def convGrade (s : String) : Option Rat :=
  parseFloat? (commaToDot s)

/-- One extracted competitor performance (the dictionary built at
`data_utils.py` lines 92-104; the seven-element grade lists carry the
`TEC1..`/`ATH1..` fields positionally). -/
structure PerfRecord where
  tournament : String
  category : String
  pool : String
  name : String
  nationality : String
  kata : String
  technicalGrades : List Rat
  athleticGrades : List Rat
  score : Rat
deriving DecidableEq, Repr

/-- Grade conversion of a list of cell texts, raising on the first
unparsable entry (`data_utils.py` lines 88-89). -/
def convGradeE : List String → Except PyErr (List Rat)
  | [] => .ok []
  | t :: ts => do
      let q ← pyFloat (commaToDot t)
      let qs ← convGradeE ts
      pure (q :: qs)

/-- Embeds `category_data` (`data_utils.py` lines 6-32), applied to the
already-fetched-and-parsed page: take the first `div.newsheader`, drop the
final two characters of its text, split at the last `" - "` into tournament
and category (a missing header raises `IndexError`; a text without `" - "`
makes the 2-tuple unpacking raise `ValueError`), and collect all
`table.moduletable_draw` pool tables. -/
def category_data (page : Node) : Except PyErr (List Node × String × String) := do
  let hd ← pyIndex (findAll page "div" (some ["newsheader"])) 0
  match rsplit1 (pyDropLast (nodeText hd) 2) " - " with
  | [t, c] => pure (findAll page "table" (some ["moduletable_draw"]), t, c)
  | _ => .error .valueError

/-- Embeds the body of the `if` at `data_utils.py` lines 82-107: build one
record from a result row (grade sub-rows, grade conversion, score). -/
def emitRecord (t c p : String) (row b0 : Node) (kata : String) :
    Except PyErr PerfRecord := do
  let tr0 ← pyIndex (findAll row "tr" none) 0
  let tr1 ← pyIndex (findAll row "tr" none) 1
  let tLast ← pyLast (findAll tr0 "td" none)
  let _ ← pyFloat (nodeText tLast)
  let aLast ← pyLast (findAll tr1 "td" none)
  let _ ← pyFloat (nodeText aLast)
  let sLast ← pyLast (findAll row "td" none)
  let total_score ← pyFloat (nodeText sLast)
  let tg ← convGradeE ((pySlice (findAll tr0 "td" none) 1 8).map nodeText)
  let ag ← convGradeE ((pySlice (findAll tr1 "td" none) 1 8).map nodeText)
  pure { tournament := t, category := c, pool := p,
         name := (rsplit1 (nodeText b0) " (").headD "",
         nationality := pyDropLast ((rsplit1 (nodeText b0) ",").getLastD "") 1,
         kata := kata,
         technicalGrades := tg, athleticGrades := ag, score := total_score }

/-- Embeds one iteration of the row loop (`data_utils.py` lines 70-107):
`.ok none` is a silently skipped row, `.ok (some r)` an emitted record. -/
def processRow (t c p : String) (row : Node) : Except PyErr (Option PerfRecord) := do
  let b0 ← pyIndex (findAll row "b" none) 0
  let td2 ← pyIndex (findAll row "td" none) 2
  if 0 < (nodeText td2).length ∧ 0 < (findAll row "tr" none).length then
    (emitRecord t c p row b0 (nodeText td2)).map some
  else
    pure none

/-- Row loop over the result rows of one pool table. -/
def processRows (t c p : String) : List Node → Except PyErr (List PerfRecord)
  | [] => .ok []
  | row :: rest => do
      let o ← processRow t c p row
      let others ← processRows t c p rest
      match o with
      | some r => pure (r :: others)
      | none => pure others

/-- Embeds one iteration of the table loop (`data_utils.py` lines 66-107):
pool label from the first row's text after the first `":"`, then the
alternating-colour result rows. -/
def processTable (t c : String) (table : Node) : Except PyErr (List PerfRecord) := do
  let tr0 ← pyIndex (findAll table "tr" none) 0
  let pool ← pyIndex ((nodeText tr0).splitOn ":") 1
  processRows t c pool (findAll table "tr" (some ["dctabrowwhite", "dctabrowgreen"]))

/-- Table loop of `get_round_performances`. -/
def processTables (t c : String) : List Node → Except PyErr (List PerfRecord)
  | [] => .ok []
  | tb :: tbs => do
      let d ← processTable t c tb
      let rest ← processTables t c tbs
      pure (d ++ rest)

/-- Embeds `get_round_performances` (`data_utils.py` lines 35-109), applied
to the already-fetched-and-parsed category page. -/
def get_round_performances (page : Node) : Except PyErr (List PerfRecord) := do
  let (tables, tournament, category) ← category_data page
  processTables tournament category tables

/-- The fixed base path prepended to each kept link (`data_utils.py` line 128). -/
def baseUrl : String :=
  "https://www.sportdata.org/wkf/set-online/"

/-- Title filter of `data_utils.py` line 127. -/
def hasKata (title : String) : Bool :=
  pyIn "Male Kata" title || pyIn "Female Kata" title

/-- Python `l[:-3]`: drop the final three elements (clamped). -/
def dropLast3 {α : Type} (l : List α) : List α :=
  l.take (l.length - 3)

/-- Link loop of `get_rounds_urls` (`data_utils.py` lines 126-128). -/
def collectUrls : List Node → Except PyErr (List String)
  | [] => .ok []
  | l :: ls => do
      let title ← pyAttr l "title"
      if hasKata title then do
        let href ← pyAttr l "href"
        let rest ← collectUrls ls
        pure ((baseUrl ++ href) :: rest)
      else
        collectUrls ls

/-- Embeds `get_rounds_urls` (`data_utils.py` lines 111-129), applied to the
already-fetched-and-parsed draws-index page: all `a.datalink2` links minus
the last three, filtered by title, prefixed with the base path. -/
def get_rounds_urls (page : Node) : Except PyErr (List String) :=
  collectUrls (dropLast3 (findAll page "a" (some ["datalink2"])))

/-- Models `pandas.concat`: per the pandas documentation it raises
`ValueError` when given no objects to concatenate; on the homogeneous
record lists produced here it concatenates in order. -/
def pdConcat (dfs : List (List PerfRecord)) : Except PyErr (List PerfRecord) :=
  match dfs with
  | [] => .error .valueError
  | _ => .ok dfs.flatten

/-- The list comprehension of `data_utils.py` line 147, with the network
fetch of each category page abstracted as the oracle `fetch`. -/
def mapGetRound (fetch : String → Node) : List String → Except PyErr (List (List PerfRecord))
  | [] => .ok []
  | u :: us => do
      let d ← get_round_performances (fetch u)
      let rest ← mapGetRound fetch us
      pure (d :: rest)

/-- Embeds `get_performances` (`data_utils.py` lines 132-150). -/
def get_performances (fetch : String → Node) (draws_url : String) :
    Except PyErr (List PerfRecord) := do
  let urls ← get_rounds_urls (fetch draws_url)
  let dfs ← mapGetRound fetch urls
  pdConcat dfs

/-- The list comprehension of `data_utils.py` line 168. -/
def mapGetPerf (fetch : String → Node) : List String → Except PyErr (List (List PerfRecord))
  | [] => .ok []
  | u :: us => do
      let d ← get_performances fetch u
      let rest ← mapGetPerf fetch us
      pure (d :: rest)

/-- Embeds `concat_tournaments` (`data_utils.py` lines 152-169), with file
reading abstracted as the oracle `readFile`. -/
def concat_tournaments (fetch : String → Node) (readFile : String → String)
    (filename : String) : Except PyErr (List PerfRecord) := do
  let dfs ← mapGetPerf fetch (pySplitlines (readFile filename))
  pdConcat dfs

namespace DashCopy

/-- Embeds `category_data` of the duplicated copy
`src/wkf-kata-machine-learning/data_utils.py` (lines 6-17). -/
def category_data (page : Node) : Except PyErr (List Node × String × String) := do
  let hd ← pyIndex (findAll page "div" (some ["newsheader"])) 0
  match rsplit1 (pyDropLast (nodeText hd) 2) " - " with
  | [t, c] => pure (findAll page "table" (some ["moduletable_draw"]), t, c)
  | _ => .error .valueError

/-- Embeds the record-building branch of the duplicated copy (lines 41-68). -/
def emitRecord (t c p : String) (row b0 : Node) (kata : String) :
    Except PyErr PerfRecord := do
  let tr0 ← pyIndex (findAll row "tr" none) 0
  let tr1 ← pyIndex (findAll row "tr" none) 1
  let tLast ← pyLast (findAll tr0 "td" none)
  let _ ← pyFloat (nodeText tLast)
  let aLast ← pyLast (findAll tr1 "td" none)
  let _ ← pyFloat (nodeText aLast)
  let sLast ← pyLast (findAll row "td" none)
  let total_score ← pyFloat (nodeText sLast)
  let tg ← convGradeE ((pySlice (findAll tr0 "td" none) 1 8).map nodeText)
  let ag ← convGradeE ((pySlice (findAll tr1 "td" none) 1 8).map nodeText)
  pure { tournament := t, category := c, pool := p,
         name := (rsplit1 (nodeText b0) " (").headD "",
         nationality := pyDropLast ((rsplit1 (nodeText b0) ",").getLastD "") 1,
         kata := kata,
         technicalGrades := tg, athleticGrades := ag, score := total_score }

/-- Embeds one row-loop iteration of the duplicated copy (lines 29-68). -/
def processRow (t c p : String) (row : Node) : Except PyErr (Option PerfRecord) := do
  let b0 ← pyIndex (findAll row "b" none) 0
  let td2 ← pyIndex (findAll row "td" none) 2
  if 0 < (nodeText td2).length ∧ 0 < (findAll row "tr" none).length then
    (emitRecord t c p row b0 (nodeText td2)).map some
  else
    pure none

/-- Row loop of the duplicated copy. -/
def processRows (t c p : String) : List Node → Except PyErr (List PerfRecord)
  | [] => .ok []
  | row :: rest => do
      let o ← processRow t c p row
      let others ← processRows t c p rest
      match o with
      | some r => pure (r :: others)
      | none => pure others

/-- Embeds one table-loop iteration of the duplicated copy (lines 25-68). -/
def processTable (t c : String) (table : Node) : Except PyErr (List PerfRecord) := do
  let tr0 ← pyIndex (findAll table "tr" none) 0
  let pool ← pyIndex ((nodeText tr0).splitOn ":") 1
  processRows t c pool (findAll table "tr" (some ["dctabrowwhite", "dctabrowgreen"]))

/-- Table loop of the duplicated copy. -/
def processTables (t c : String) : List Node → Except PyErr (List PerfRecord)
  | [] => .ok []
  | tb :: tbs => do
      let d ← processTable t c tb
      let rest ← processTables t c tbs
      pure (d ++ rest)

/-- Embeds `get_round_performances` of the duplicated copy (lines 20-70). -/
def get_round_performances (page : Node) : Except PyErr (List PerfRecord) := do
  let (tables, tournament, category) ← category_data page
  processTables tournament category tables

/-- Link loop of the duplicated copy (lines 78-80). -/
def collectUrls : List Node → Except PyErr (List String)
  | [] => .ok []
  | l :: ls => do
      let title ← pyAttr l "title"
      if hasKata title then do
        let href ← pyAttr l "href"
        let rest ← collectUrls ls
        pure ((baseUrl ++ href) :: rest)
      else
        collectUrls ls

/-- Embeds `get_rounds_urls` of the duplicated copy (lines 72-81). -/
def get_rounds_urls (page : Node) : Except PyErr (List String) :=
  collectUrls (dropLast3 (findAll page "a" (some ["datalink2"])))

/-- The list comprehension of the duplicated copy's `get_performances`. -/
def mapGetRound (fetch : String → Node) : List String → Except PyErr (List (List PerfRecord))
  | [] => .ok []
  | u :: us => do
      let d ← get_round_performances (fetch u)
      let rest ← mapGetRound fetch us
      pure (d :: rest)

/-- Embeds `get_performances` of the duplicated copy (lines 84-91). -/
def get_performances (fetch : String → Node) (draws_url : String) :
    Except PyErr (List PerfRecord) := do
  let urls ← get_rounds_urls (fetch draws_url)
  let dfs ← mapGetRound fetch urls
  pdConcat dfs

/-- The list comprehension of the duplicated copy's `concat_tournaments`. -/
def mapGetPerf (fetch : String → Node) : List String → Except PyErr (List (List PerfRecord))
  | [] => .ok []
  | u :: us => do
      let d ← get_performances fetch u
      let rest ← mapGetPerf fetch us
      pure (d :: rest)

/-- Embeds `concat_tournaments` of the duplicated copy (lines 93-98). -/
def concat_tournaments (fetch : String → Node) (readFile : String → String)
    (filename : String) : Except PyErr (List PerfRecord) := do
  let dfs ← mapGetPerf fetch (pySplitlines (readFile filename))
  pdConcat dfs

end DashCopy

/-- Nonempty all-digit string: `D+` (used to state what a decimal-comma
number is). -/
def isDigits (l : List Char) : Bool :=
  l.all Char.isDigit && decide (l ≠ [])

/-- Character lists of the shape `D* ',' D+`: a decimal-comma number such
as `8,5`. -/
def commaShape : List Char → Bool
  | [] => false
  | c :: r => (c.isDigit && commaShape r) || ((c == ',') && isDigits r)

/-- Formalises the spec phrase "decimal-comma form" for a grade string:
digits, one comma, digits (e.g. `"8,5"`). -/
def isCommaDecimal (s : String) : Bool :=
  commaShape s.data

/-- Test fixture: a table cell holding one text fragment. -/
def tdText (s : String) : Node :=
  .elem "td" [] [] [.textN s]

/-- Test fixture: a table cell holding the bold competitor identity. -/
def bCell (s : String) : Node :=
  .elem "td" [] [] [.elem "b" [] [] [.textN s]]

/-- Test fixture: a nested grade sub-row with the given cell texts. -/
def subRow (cells : List String) : Node :=
  .elem "tr" [] [] (cells.map tdText)

/-- Test fixture: a result row in the page layout the extractor walks:
identity cell, position cell, kata cell, a cell holding the nested grade
sub-rows, and the final score cell. -/
def resultRow (competitor idx kata : String) (subRows : List Node) (score : String) : Node :=
  .elem "tr" ["dctabrowwhite"] []
    [bCell competitor, tdText idx, tdText kata, .elem "td" [] [] subRows, tdText score]

/-- Test fixture: a pool table whose first row carries the pool label. -/
def poolTable (label : String) (rows : List Node) : Node :=
  .elem "table" ["moduletable_draw"] [] (Node.elem "tr" [] [] [tdText label] :: rows)

/-- Test fixture: the category page header block. -/
def newsHdr (s : String) : Node :=
  .elem "div" ["newsheader"] [] [.textN s]

/-- Test fixture: a navigation link with the category-link style. -/
def aLink (title href : String) : Node :=
  .elem "a" ["datalink2"] [("title", title), ("href", href)] []

/-- Test fixture: a technical-grade sub-row with label, seven comma-decimal
grades and a subtotal. -/
def goodTECRow : Node :=
  subRow ["T", "7,5", "7,5", "7,5", "7,5", "7,5", "7,5", "7,5", "22.5"]

/-- Test fixture: an athletic-grade sub-row with label, seven comma-decimal
grades and a subtotal. -/
def goodATHRow : Node :=
  subRow ["A", "8,0", "8,0", "8,0", "8,0", "8,0", "8,0", "8,0", "24.0"]

/-- Test fixture: a complete result row with seven comma-decimal grades in
each sub-row. -/
def goodRow : Node :=
  resultRow "Ann Lee (Rome, ITA)" "1" "001 Anan" [goodTECRow, goodATHRow] "25.5"

/-- The record the extractor emits for `goodRow`. -/
def goodRec : PerfRecord :=
  { tournament := "T", category := "C", pool := "P", name := "Ann Lee",
    nationality := " ITA", kata := "001 Anan",
    technicalGrades := List.replicate 7 (mkRat 15 2),
    athleticGrades := List.replicate 7 8,
    score := mkRat 51 2 }

/-- Test fixture: a no-show row — empty kata cell and no grade sub-rows. -/
def skipRow : Node :=
  resultRow "Zoe Ng (Oslo, NOR)" "2" "" [] ""

/-- Test fixture: a row with a non-empty kata label but only ONE nested
grade sub-row. -/
def oneSubRow : Node :=
  resultRow "Bo Chen (Kobe, JPN)" "3" "002 Chatanyara"
    [subRow ["T", "7,5", "22.5"]] "24.0"

/-- Test fixture: a row whose grade sub-rows hold only three cells each
(label, two grades) instead of nine. -/
def shortRow : Node :=
  resultRow "Ann Lee (Rome, ITA)" "1" "001 Anan"
    [subRow ["T", "7.5", "8.0"], subRow ["A", "7.0", "9.0"]] "25.1"

/-- The record the extractor emits for `shortRow`: only two grades per list. -/
def shortRec : PerfRecord :=
  { tournament := "T", category := "C", pool := "P", name := "Ann Lee",
    nationality := " ITA", kata := "001 Anan",
    technicalGrades := [mkRat 15 2, 8],
    athleticGrades := [7, 9],
    score := mkRat 251 10 }

/-- Test fixture: a complete row whose competitor name itself contains a
parenthesised part, so the identity text holds two `" ("` occurrences. -/
def parenRow : Node :=
  resultRow "Ann (Bo) (Rome, ITA)" "1" "001 Anan"
    [subRow ["T", "7,5", "7,5", "7,5", "7,5", "7,5", "7,5", "7,5", "22.5"],
     subRow ["A", "8,0", "8,0", "8,0", "8,0", "8,0", "8,0", "8,0", "24.0"]]
    "25.5"

/-- The record the extractor emits for `parenRow`. -/
def parenRec : PerfRecord :=
  { tournament := "T", category := "C", pool := "P", name := "Ann (Bo)",
    nationality := " ITA", kata := "001 Anan",
    technicalGrades := List.replicate 7 (mkRat 15 2),
    athleticGrades := List.replicate 7 8,
    score := mkRat 51 2 }

/-- Test fixture: a category page whose header text ends in the category
name itself, with no trailing junk characters. -/
def pageBareHeader : Node :=
  .elem "html" [] [] [newsHdr "AB - CD"]

/-- Test fixture: a category page with a well-formed header (two trailing
junk characters) and NO pool table at all. -/
def pageNoTables : Node :=
  .elem "html" [] [] [newsHdr "AB - CDxy"]

/-- Test fixture: a page with no header block. -/
def pageNoHeader : Node :=
  .elem "html" [] [] [tdText "nothing here"]

/-- Test fixture: a full category page with one pool table. -/
def goodPage : Node :=
  .elem "html" [] []
    [newsHdr "Karate1 Premier League - Salzburg 2020 - Female Kataxy",
     poolTable "Pool: 1 / 4" [goodRow, skipRow]]

/-- Test fixture: a draws-index page with six category-link anchors; the
final three are the non-category entries the code drops positionally. -/
def drawsPage : Node :=
  .elem "html" [] []
    [aLink "Female Kata R1" "u1", aLink "Male Kumite" "u2", aLink "Male Kata R2" "u3",
     aLink "Female Kata R2" "u4", aLink "Summary" "u5", aLink "Kumite Overview" "u6"]

/-- Test fixture: a fetch oracle returning a page with no links or tables. -/
def emptyFetch : String → Node :=
  fun _ => Node.textN ""

/-- Test fixture: a file oracle returning empty content. -/
def emptyRead : String → String :=
  fun _ => ""
theorem strExt {a b : String} (h : a.data = b.data) : a = b := by
  cases a
  cases b
  exact congrArg String.mk h

theorem ebind_ok {α β : Type} (a : α) (f : α → Except PyErr β) :
    (Except.ok a >>= f : Except PyErr β) = f a := rfl

theorem ebind_err {α β : Type} (e : PyErr) (f : α → Except PyErr β) :
    (Except.error e >>= f : Except PyErr β) = Except.error e := rfl

theorem pyIndex_ok {α : Type} (l : List α) (i : Nat) (a : α) :
    pyIndex l i = .ok a ↔ l.get? i = some a := by
  unfold pyIndex
  cases h : l.get? i <;> simp

theorem pyLast_ok {α : Type} (l : List α) (a : α) :
    pyLast l = .ok a ↔ l.getLast? = some a := by
  unfold pyLast
  cases h : l.getLast? <;> simp

theorem pyFloat_ok (s : String) (q : Rat) :
    pyFloat s = .ok q ↔ parseFloat? s = some q := by
  unfold pyFloat
  cases h : parseFloat? s <;> simp

theorem length_pos_ne_empty {s : String} (h : 0 < s.length) : s ≠ "" := by
  intro he
  subst he
  simp at h

theorem convGradeE_length (ts : List String) (qs : List Rat)
    (h : convGradeE ts = .ok qs) : qs.length = ts.length := by
  induction ts generalizing qs with
  | nil =>
      unfold convGradeE at h
      simp at h
      simp [← h]
  | cons t ts ih =>
      unfold convGradeE at h
      cases hf : pyFloat (commaToDot t) with
      | error e => simp only [hf, ebind_err] at h; exact Except.noConfusion h
      | ok q =>
          simp only [hf, ebind_ok] at h
          cases hr : convGradeE ts with
          | error e => simp only [hr, ebind_err] at h; exact Except.noConfusion h
          | ok qs' =>
              simp only [hr, ebind_ok] at h
              simp only [pure, Except.pure, Except.ok.injEq] at h
              subst h
              simp [ih qs' hr]

theorem processRow_emit (t c p : String) (row : Node) (r : PerfRecord)
    (h : processRow t c p row = .ok (some r)) :
    ∃ b0 td2 tr0 tr1 sLast,
      (findAll row "b" none).get? 0 = some b0 ∧
      (findAll row "td" none).get? 2 = some td2 ∧
      (findAll row "tr" none).get? 0 = some tr0 ∧
      (findAll row "tr" none).get? 1 = some tr1 ∧
      (findAll row "td" none).getLast? = some sLast ∧
      parseFloat? (nodeText sLast) = some r.score ∧
      convGradeE ((pySlice (findAll tr0 "td" none) 1 8).map nodeText) = .ok r.technicalGrades ∧
      convGradeE ((pySlice (findAll tr1 "td" none) 1 8).map nodeText) = .ok r.athleticGrades ∧
      r.tournament = t ∧ r.category = c ∧ r.pool = p ∧
      r.name = (rsplit1 (nodeText b0) " (").headD "" ∧
      r.nationality = pyDropLast ((rsplit1 (nodeText b0) ",").getLastD "") 1 ∧
      r.kata = nodeText td2 ∧ r.kata ≠ "" := by
  unfold processRow at h
  cases hb : pyIndex (findAll row "b" none) 0 with
  | error e => simp only [hb, ebind_err] at h; exact Except.noConfusion h
  | ok b0 =>
  simp only [hb, ebind_ok] at h
  cases htd : pyIndex (findAll row "td" none) 2 with
  | error e => simp only [htd, ebind_err] at h; exact Except.noConfusion h
  | ok td2 =>
  simp only [htd, ebind_ok] at h
  by_cases hif : 0 < (nodeText td2).length ∧ 0 < (findAll row "tr" none).length
  case neg =>
    rw [if_neg hif] at h
    simp only [pure, Except.pure, Except.ok.injEq] at h
    exact Option.noConfusion h
  case pos =>
  rw [if_pos hif] at h
  cases he : emitRecord t c p row b0 (nodeText td2) with
  | error e => rw [he] at h; simp [Except.map] at h
  | ok r' =>
  rw [he] at h
  simp only [Except.map, Except.ok.injEq, Option.some.injEq] at h
  subst h
  unfold emitRecord at he
  cases h0 : pyIndex (findAll row "tr" none) 0 with
  | error e => simp only [h0, ebind_err] at he; exact Except.noConfusion he
  | ok tr0 =>
  simp only [h0, ebind_ok] at he
  cases h1 : pyIndex (findAll row "tr" none) 1 with
  | error e => simp only [h1, ebind_err] at he; exact Except.noConfusion he
  | ok tr1 =>
  simp only [h1, ebind_ok] at he
  cases h2 : pyLast (findAll tr0 "td" none) with
  | error e => simp only [h2, ebind_err] at he; exact Except.noConfusion he
  | ok tLast =>
  simp only [h2, ebind_ok] at he
  cases h3 : pyFloat (nodeText tLast) with
  | error e => simp only [h3, ebind_err] at he; exact Except.noConfusion he
  | ok tsub =>
  simp only [h3, ebind_ok] at he
  cases h4 : pyLast (findAll tr1 "td" none) with
  | error e => simp only [h4, ebind_err] at he; exact Except.noConfusion he
  | ok aLast =>
  simp only [h4, ebind_ok] at he
  cases h5 : pyFloat (nodeText aLast) with
  | error e => simp only [h5, ebind_err] at he; exact Except.noConfusion he
  | ok asub =>
  simp only [h5, ebind_ok] at he
  cases h6 : pyLast (findAll row "td" none) with
  | error e => simp only [h6, ebind_err] at he; exact Except.noConfusion he
  | ok sLast =>
  simp only [h6, ebind_ok] at he
  cases h7 : pyFloat (nodeText sLast) with
  | error e => simp only [h7, ebind_err] at he; exact Except.noConfusion he
  | ok sc =>
  simp only [h7, ebind_ok] at he
  cases h8 : convGradeE ((pySlice (findAll tr0 "td" none) 1 8).map nodeText) with
  | error e => simp only [h8, ebind_err] at he; exact Except.noConfusion he
  | ok tg =>
  simp only [h8, ebind_ok] at he
  cases h9 : convGradeE ((pySlice (findAll tr1 "td" none) 1 8).map nodeText) with
  | error e => simp only [h9, ebind_err] at he; exact Except.noConfusion he
  | ok ag =>
  simp only [h9, ebind_ok] at he
  simp only [pure, Except.pure, Except.ok.injEq] at he
  subst he
  refine ⟨b0, td2, tr0, tr1, sLast, (pyIndex_ok _ _ _).mp hb, (pyIndex_ok _ _ _).mp htd,
    (pyIndex_ok _ _ _).mp h0, (pyIndex_ok _ _ _).mp h1, (pyLast_ok _ _).mp h6,
    (pyFloat_ok _ _).mp h7, h8, h9, rfl, rfl, rfl, rfl, rfl, rfl,
    length_pos_ne_empty hif.1⟩

theorem strLen0 {s : String} (h : s.length = 0) : s = "" := by
  cases s with
  | mk l =>
      simp only [String.length] at h
      rw [List.length_eq_zero] at h
      subst h
      rfl

theorem processRow_skip (t c p : String) (row b0 td2 : Node)
    (hb : (findAll row "b" none).get? 0 = some b0)
    (htd : (findAll row "td" none).get? 2 = some td2) :
    processRow t c p row = .ok none ↔
      (nodeText td2 = "" ∨ findAll row "tr" none = []) := by
  unfold processRow
  have hb' : pyIndex (findAll row "b" none) 0 = .ok b0 := (pyIndex_ok _ _ _).mpr hb
  have htd' : pyIndex (findAll row "td" none) 2 = .ok td2 := (pyIndex_ok _ _ _).mpr htd
  simp only [hb', ebind_ok, htd']
  by_cases hif : 0 < (nodeText td2).length ∧ 0 < (findAll row "tr" none).length
  · rw [if_pos hif]
    constructor
    · intro h
      cases he : emitRecord t c p row b0 (nodeText td2) with
      | error e => rw [he] at h; simp [Except.map] at h
      | ok r' => rw [he] at h; simp [Except.map] at h
    · rintro (h | h)
      · rw [h] at hif; simp at hif
      · rw [h] at hif; simp at hif
  · rw [if_neg hif]
    simp only [pure, Except.pure]
    constructor
    · intro _
      rcases not_and_or.mp hif with h | h
      · exact Or.inl (strLen0 (Nat.eq_zero_of_not_pos h))
      · exact Or.inr (List.length_eq_zero.mp (Nat.eq_zero_of_not_pos h))
    · intro _; trivial

theorem processRows_skip (t c p : String) (row : Node)
    (h : processRow t c p row = .ok none) (l1 l2 : List Node) :
    processRows t c p (l1 ++ row :: l2) = processRows t c p (l1 ++ l2) := by
  induction l1 with
  | nil =>
      simp only [List.nil_append]
      conv_lhs => rw [processRows]
      rw [h, ebind_ok]
      simp [bind_pure]
  | cons a l1 ih =>
      simp only [List.cons_append]
      unfold processRows
      rw [ih]

theorem category_data_ok (page hd : Node) (t c : String)
    (hh : (findAll page "div" (some ["newsheader"])).get? 0 = some hd)
    (hs : rsplit1 (pyDropLast (nodeText hd) 2) " - " = [t, c]) :
    category_data page = .ok (findAll page "table" (some ["moduletable_draw"]), t, c) := by
  unfold category_data
  have hh' : pyIndex (findAll page "div" (some ["newsheader"])) 0 = .ok hd :=
    (pyIndex_ok _ _ _).mpr hh
  simp only [hh', ebind_ok, hs]
  rfl

theorem category_data_noheader (page : Node)
    (h : findAll page "div" (some ["newsheader"]) = []) :
    category_data page = .error .indexError := by
  unfold category_data
  rw [h]
  rfl

theorem collectUrls_ok (ls : List Node)
    (h : ∀ l ∈ ls, (l.attr? "title").isSome = true ∧ (l.attr? "href").isSome = true) :
    collectUrls ls =
      .ok ((ls.filter (fun l => hasKata ((l.attr? "title").getD ""))).map
        (fun l => baseUrl ++ (l.attr? "href").getD "")) := by
  induction ls with
  | nil => rfl
  | cons l ls ih =>
      obtain ⟨ht1, hf1⟩ := h l (List.mem_cons_self l ls)
      obtain ⟨title, ht⟩ := Option.isSome_iff_exists.mp ht1
      obtain ⟨href, hf⟩ := Option.isSome_iff_exists.mp hf1
      have ih' := ih (fun x hx => h x (List.mem_cons_of_mem _ hx))
      unfold collectUrls
      have hat : pyAttr l "title" = .ok title := by unfold pyAttr; rw [ht]
      simp only [hat, ebind_ok]
      by_cases hk : hasKata title = true
      · rw [if_pos hk]
        have haf : pyAttr l "href" = .ok href := by unfold pyAttr; rw [hf]
        simp only [haf, ebind_ok, ih', ebind_ok]
        simp [List.filter_cons, ht, hk, hf]
        rfl
      · rw [if_neg hk]
        rw [ih']
        simp [List.filter_cons, ht, hk]

theorem digit_ne (c d : Char) (hc : c.isDigit = true) (hd : d.isDigit = false) : c ≠ d := by
  intro h
  subst h
  rw [hc] at hd
  exact Bool.noConfusion hd

theorem dropWhile_head_false {α : Type} (p : α → Bool) :
    ∀ (l : List α) (d : α) (ds : List α), l.dropWhile p = d :: ds → p d = false := by
  intro l
  induction l with
  | nil => intro d ds h; simp [List.dropWhile] at h
  | cons a as ih =>
      intro d ds h
      rw [List.dropWhile_cons] at h
      by_cases hp : p a = true
      · rw [if_pos hp] at h; exact ih d ds h
      · rw [if_neg hp] at h
        obtain ⟨h1, _⟩ := List.cons.inj h
        subst h1
        exact Bool.eq_false_iff.mpr hp

theorem allDigits_mem {l : List Char} (h : allDigits l = true) {c : Char} (hc : c ∈ l) :
    c.isDigit = true :=
  List.all_eq_true.mp h c hc

theorem pu_some_no_comma (l : List Char) (pr : Nat × Nat)
    (h : parseUnsignedND? l = some pr) : ',' ∉ l := by
  intro hm
  unfold parseUnsignedND? at h
  by_cases hd : l.any (fun c => c == '.') = true
  · rw [if_pos hd] at h
    by_cases hg : (allDigits (l.takeWhile (fun c => c != '.')) &&
        allDigits ((l.dropWhile (fun c => c != '.')).tail) &&
        decide (0 < (l.takeWhile (fun c => c != '.')).length +
                    ((l.dropWhile (fun c => c != '.')).tail).length)) = true
    · have hga := hg
      rw [Bool.and_eq_true, Bool.and_eq_true] at hga
      have hip : allDigits (l.takeWhile (fun c => c != '.')) = true := hga.1.1
      have hfp : allDigits ((l.dropWhile (fun c => c != '.')).tail) = true := hga.1.2
      rw [← List.takeWhile_append_dropWhile (fun c => c != '.') l] at hm
      rcases List.mem_append.mp hm with hmem | hmem
      · have := allDigits_mem hip hmem
        simp at this
      · cases hdw : l.dropWhile (fun c => c != '.') with
        | nil => rw [hdw] at hmem; simp at hmem
        | cons d ds =>
            have hdhead : (d != '.') = false := dropWhile_head_false _ l d ds hdw
            have hddot : d = '.' := by
              simpa using hdhead
            rw [hdw] at hmem
            rcases List.mem_cons.mp hmem with hmem | hmem
            · rw [hddot] at hmem; exact absurd hmem (by decide)
            · have : (',' : Char).isDigit = true := by
                apply allDigits_mem hfp
                rw [hdw]
                exact hmem
              simp at this
    · rw [if_neg hg] at h; exact Option.noConfusion h
  · rw [if_neg hd] at h
    by_cases hg : (allDigits l && decide (l ≠ [])) = true
    · have hga := hg
      rw [Bool.and_eq_true] at hga
      have := allDigits_mem hga.1 hm
      simp at this
    · rw [if_neg hg] at h; exact Option.noConfusion h

theorem mapDot_id (l : List Char) (h : ',' ∉ l) :
    l.map (fun c => if c = ',' then '.' else c) = l := by
  induction l with
  | nil => rfl
  | cons a as ih =>
      simp only [List.map_cons]
      have ha : a ≠ ',' := fun he => h (he ▸ List.mem_cons_self a as)
      rw [if_neg ha, ih (fun hm => h (List.mem_cons_of_mem _ hm))]

theorem parseFloat_no_comma (s : String) (q : Rat) (h : parseFloat? s = some q) :
    commaToDot s = s := by
  cases s with
  | mk l =>
      unfold parseFloat? at h
      unfold commaToDot
      apply strExt
      simp only
      cases l with
      | nil => exact Option.noConfusion h
      | cons c r =>
          simp only at h
          by_cases hc1 : c = '-'
          · rw [if_pos hc1] at h
            obtain ⟨pr, hpr, _⟩ := Option.map_eq_some'.mp h
            have hnc := pu_some_no_comma r pr hpr
            rw [List.map_cons, mapDot_id r hnc, if_neg (by rw [hc1]; decide)]
          · rw [if_neg hc1] at h
            by_cases hc2 : c = '+'
            · rw [if_pos hc2] at h
              obtain ⟨pr, hpr, _⟩ := Option.map_eq_some'.mp h
              have hnc := pu_some_no_comma r pr hpr
              rw [List.map_cons, mapDot_id r hnc, if_neg (by rw [hc2]; decide)]
            · rw [if_neg hc2] at h
              obtain ⟨pr, hpr, _⟩ := Option.map_eq_some'.mp h
              have hnc := pu_some_no_comma (c :: r) pr hpr
              exact mapDot_id (c :: r) hnc

theorem convGrade_of_parse (s : String) (q : Rat) (h : parseFloat? s = some q) :
    convGrade s = some q := by
  unfold convGrade
  rw [parseFloat_no_comma s q h]
  exact h

theorem digit_beq_dot_false {c : Char} (hc : c.isDigit = true) : (c == '.') = false := by
  apply beq_eq_false_iff_ne.mpr
  exact digit_ne c '.' hc (by decide)

theorem digit_bne_dot {c : Char} (hc : c.isDigit = true) : (c != '.') = true := by
  simp [bne, digit_beq_dot_false hc]

theorem pu_cons_digit (c : Char) (l : List Char) (hc : c.isDigit = true)
    (h : (parseUnsignedND? l).isSome = true) :
    (parseUnsignedND? (c :: l)).isSome = true := by
  unfold parseUnsignedND? at h ⊢
  rw [List.any_cons, digit_beq_dot_false hc, Bool.false_or]
  by_cases hd : l.any (fun c => c == '.') = true
  · rw [if_pos hd] at h ⊢
    rw [List.takeWhile_cons, List.dropWhile_cons, digit_bne_dot hc]
    simp only [if_pos rfl]
    by_cases hg : (allDigits (l.takeWhile (fun c => c != '.')) &&
        allDigits ((l.dropWhile (fun c => c != '.')).tail) &&
        decide (0 < (l.takeWhile (fun c => c != '.')).length +
                    ((l.dropWhile (fun c => c != '.')).tail).length)) = true
    · have hga := hg
      rw [Bool.and_eq_true, Bool.and_eq_true] at hga
      rw [if_pos (by
        rw [Bool.and_eq_true, Bool.and_eq_true]
        refine ⟨⟨?_, hga.1.2⟩, ?_⟩
        · simp [allDigits, hc, allDigits_mem hga.1.1]
          intro x hx
          exact allDigits_mem hga.1.1 hx
        · simp)]
      rfl
    · rw [if_neg hg] at h
      simp at h
  · rw [if_neg hd] at h ⊢
    by_cases hg : (allDigits l && decide (l ≠ [])) = true
    · have hga := hg
      rw [Bool.and_eq_true] at hga
      rw [if_pos (by
        rw [Bool.and_eq_true]
        refine ⟨?_, by simp⟩
        simp [allDigits, hc]
        intro x hx
        exact allDigits_mem hga.1 hx)]
      rfl
    · rw [if_neg hg] at h
      simp at h

theorem pu_dot_digits (r : List Char) (hr : isDigits r = true) :
    (parseUnsignedND? ('.' :: r)).isSome = true := by
  unfold isDigits at hr
  rw [Bool.and_eq_true] at hr
  have h1 : r.all Char.isDigit = true := hr.1
  have hrne : r ≠ [] := by simpa using hr.2
  unfold parseUnsignedND?
  simp [List.any_cons, List.takeWhile_cons, List.dropWhile_cons, allDigits, h1,
    List.length_pos, hrne]

theorem mapDot_digits (l : List Char) (h : l.all Char.isDigit = true) :
    l.map (fun c => if c = ',' then '.' else c) = l := by
  apply mapDot_id
  intro hm
  have := List.all_eq_true.mp h ',' hm
  simp at this

theorem pu_mapDot_commaShape (l : List Char) (h : commaShape l = true) :
    (parseUnsignedND? (l.map (fun c => if c = ',' then '.' else c))).isSome = true := by
  induction l with
  | nil => exact Bool.noConfusion h
  | cons c r ih =>
      unfold commaShape at h
      rw [Bool.or_eq_true, Bool.and_eq_true, Bool.and_eq_true] at h
      rcases h with ⟨hc, hr⟩ | ⟨hc, hr⟩
      · rw [List.map_cons, if_neg (digit_ne c ',' hc (by decide))]
        exact pu_cons_digit c _ hc (ih hr)
      · have hceq : c = ',' := beq_iff_eq.mp hc
        have hall : r.all Char.isDigit = true := by
          unfold isDigits at hr
          rw [Bool.and_eq_true] at hr
          exact hr.1
        rw [List.map_cons, hceq, if_pos rfl, mapDot_digits r hall]
        exact pu_dot_digits r hr

theorem parseFloat_mapDot_isSome (l : List Char) (h : commaShape l = true) :
    (parseFloat? ⟨l.map (fun c => if c = ',' then '.' else c)⟩).isSome = true := by
  cases l with
  | nil => exact Bool.noConfusion h
  | cons c r =>
      have hcase := h
      unfold commaShape at hcase
      rw [Bool.or_eq_true, Bool.and_eq_true, Bool.and_eq_true] at hcase
      have hne1 : (if c = ',' then '.' else c) ≠ '-' := by
        rcases hcase with ⟨hc, _⟩ | ⟨hc, _⟩
        · rw [if_neg (digit_ne c ',' hc (by decide))]
          exact digit_ne c '-' hc (by decide)
        · rw [if_pos (beq_iff_eq.mp hc)]
          decide
      have hne2 : (if c = ',' then '.' else c) ≠ '+' := by
        rcases hcase with ⟨hc, _⟩ | ⟨hc, _⟩
        · rw [if_neg (digit_ne c ',' hc (by decide))]
          exact digit_ne c '+' hc (by decide)
        · rw [if_pos (beq_iff_eq.mp hc)]
          decide
      unfold parseFloat?
      simp only [List.map_cons]
      rw [if_neg hne1, if_neg hne2]
      have hps := pu_mapDot_commaShape (c :: r) h
      simp only [List.map_cons] at hps
      cases hx : parseUnsignedND?
          ((if c = ',' then '.' else c) :: List.map (fun c => if c = ',' then '.' else c) r) with
      | none => rw [hx] at hps; exact Bool.noConfusion hps
      | some pr => simp [hx]

theorem convGrade_isSome_of_commaDecimal (s : String) (h : isCommaDecimal s = true) :
    (convGrade s).isSome = true := by
  cases s with
  | mk l =>
      unfold isCommaDecimal at h
      unfold convGrade commaToDot
      exact parseFloat_mapDot_isSome l h

theorem isPrefixOf_append_self (l r : List Char) : l.isPrefixOf (l ++ r) = true := by
  induction l with
  | nil => cases r <;> rfl
  | cons a as ih => simp [List.isPrefixOf, ih]

theorem hasSubstr_none_rsplit (sep l : List Char) (h : hasSubstr sep l = false) :
    rsplitList sep l = none := by
  induction l with
  | nil => rfl
  | cons c r ih =>
      unfold hasSubstr at h
      rw [Bool.or_eq_false_iff] at h
      unfold rsplitList
      rw [ih h.2]
      simp [h.1]

theorem rsplitList_concat (sep pre post : List Char) (hsep : sep ≠ [])
    (hpost : hasSubstr sep (sep.tail ++ post) = false) :
    rsplitList sep (pre ++ sep ++ post) = some (pre, post) := by
  induction pre with
  | nil =>
      simp only [List.nil_append]
      cases sep with
      | nil => exact absurd rfl hsep
      | cons s st =>
          rw [List.cons_append]
          unfold rsplitList
          rw [hasSubstr_none_rsplit (s :: st) (st ++ post) hpost]
          rw [show ((s :: st).isPrefixOf (s :: (st ++ post))) = true from by
            rw [← List.cons_append]
            exact isPrefixOf_append_self (s :: st) post]
          simp only [if_pos rfl]
          rw [show (s :: (st ++ post)) = (s :: st) ++ post from by rw [List.cons_append]]
          rw [List.drop_left]
          simp
  | cons c pre ih =>
      rw [show ((c :: pre) ++ sep ++ post) = c :: (pre ++ sep ++ post) from by
        simp [List.cons_append]]
      unfold rsplitList
      rw [ih]

theorem rsplit1_concat (pre sep post : String) (hsep : sep.data ≠ [])
    (hpost : hasSubstr sep.data (sep.data.tail ++ post.data) = false) :
    rsplit1 (pre ++ sep ++ post) sep = [pre, post] := by
  unfold rsplit1
  rw [String.data_append, String.data_append]
  rw [rsplitList_concat sep.data pre.data post.data hsep hpost]

theorem hasSubstr_single_append (ch : Char) (l1 l2 : List Char) :
    hasSubstr [ch] (l1 ++ l2) = (hasSubstr [ch] l1 || hasSubstr [ch] l2) := by
  induction l1 with
  | nil => simp [hasSubstr]
  | cons a as ih =>
      simp [hasSubstr, List.isPrefixOf, ih, Bool.or_assoc]

theorem name_of_shape (n rest : String) (hpost : pyIn " (" rest = false) :
    (rsplit1 (n ++ " (" ++ rest) " (").headD "" = n := by
  unfold pyIn at hpost
  have hps : hasSubstr " (".data (" (".data.tail ++ rest.data) = false := by
    show hasSubstr [' ', '('] ('(' :: rest.data) = false
    unfold hasSubstr
    rw [Bool.or_eq_false_iff]
    exact ⟨by simp [List.isPrefixOf], hpost⟩
  rw [rsplit1_concat n " (" rest (by decide) hps]
  rfl

theorem pyDropLast_concat_paren (a : String) : pyDropLast (a ++ ")") 1 = a := by
  unfold pyDropLast
  apply strExt
  show ((a ++ ")").data.take ((a ++ ")").data.length - 1)) = a.data
  rw [String.data_append]
  rw [show (")" : String).data = [')'] from rfl]
  have hl : (a.data ++ [')']).length - 1 = a.data.length := by simp
  rw [hl, List.take_left]

theorem nationality_of_shape (pre nat : String) (hnat : pyIn "," nat = false) :
    pyDropLast ((rsplit1 (pre ++ "," ++ (" " ++ nat ++ ")")) ",").getLastD "") 1 =
      " " ++ nat := by
  unfold pyIn at hnat
  have hps : hasSubstr ",".data (",".data.tail ++ (" " ++ nat ++ ")").data) = false := by
    show hasSubstr [','] ((" " ++ nat ++ ")").data) = false
    rw [String.data_append, String.data_append]
    rw [show (" " : String).data = [' '] from rfl, show (")" : String).data = [')'] from rfl]
    rw [hasSubstr_single_append, hasSubstr_single_append]
    rw [show hasSubstr [','] nat.data = false from hnat]
    simp [hasSubstr, List.isPrefixOf]
  rw [rsplit1_concat pre "," (" " ++ nat ++ ")") (by decide) hps]
  show pyDropLast ((" " ++ nat) ++ ")") 1 = " " ++ nat
  exact pyDropLast_concat_paren (" " ++ nat)

theorem dashProcessRow (t c p : String) (row : Node) :
    DashCopy.processRow t c p row = processRow t c p row := rfl

theorem dashProcessRows (t c p : String) (rows : List Node) :
    DashCopy.processRows t c p rows = processRows t c p rows := by
  induction rows with
  | nil => rfl
  | cons row rest ih =>
      unfold DashCopy.processRows processRows
      rw [ih]
      rfl

theorem dashProcessTable (t c : String) (table : Node) :
    DashCopy.processTable t c table = processTable t c table := by
  unfold DashCopy.processTable processTable
  simp only [dashProcessRows]

theorem dashProcessTables (t c : String) (tables : List Node) :
    DashCopy.processTables t c tables = processTables t c tables := by
  induction tables with
  | nil => rfl
  | cons tb tbs ih =>
      unfold DashCopy.processTables processTables
      rw [ih]
      simp only [dashProcessTable]

theorem dashRound (page : Node) :
    DashCopy.get_round_performances page = get_round_performances page := by
  unfold DashCopy.get_round_performances get_round_performances
  simp only [dashProcessTables]
  rfl

theorem dashCollectUrls (ls : List Node) :
    DashCopy.collectUrls ls = collectUrls ls := by
  induction ls with
  | nil => rfl
  | cons l ls ih =>
      unfold DashCopy.collectUrls collectUrls
      simp only [ih]

theorem dashRoundsUrls (page : Node) :
    DashCopy.get_rounds_urls page = get_rounds_urls page := by
  unfold DashCopy.get_rounds_urls get_rounds_urls
  rw [dashCollectUrls]

theorem dashMapGetRound (fetch : String → Node) (us : List String) :
    DashCopy.mapGetRound fetch us = mapGetRound fetch us := by
  induction us with
  | nil => rfl
  | cons u us ih =>
      unfold DashCopy.mapGetRound mapGetRound
      simp only [ih, dashRound]

theorem dashGetPerformances (fetch : String → Node) (u : String) :
    DashCopy.get_performances fetch u = get_performances fetch u := by
  unfold DashCopy.get_performances get_performances
  simp only [dashMapGetRound, dashRoundsUrls]

theorem dashMapGetPerf (fetch : String → Node) (us : List String) :
    DashCopy.mapGetPerf fetch us = mapGetPerf fetch us := by
  induction us with
  | nil => rfl
  | cons u us ih =>
      unfold DashCopy.mapGetPerf mapGetPerf
      simp only [ih, dashGetPerformances]

theorem dashConcat (fetch : String → Node) (rf : String → String) (fn : String) :
    DashCopy.concat_tournaments fetch rf fn = concat_tournaments fetch rf fn := by
  unfold DashCopy.concat_tournaments concat_tournaments
  simp only [dashMapGetPerf]

/-- Claim C1, counterexample: a row with a non-empty kata label and exactly
ONE nested sub-row is not silently omitted as the claim states — the code
raises an IndexError for it (indexing the second sub-row at
`data_utils.py` line 83 after the `> 0` guard of line 82 admitted the row). -/
theorem wkf_C1_counterexample :
    (findAll oneSubRow "tr" none).length = 1 ∧
    ((findAll oneSubRow "td" none).get? 2).map nodeText = some "002 Chatanyara" ∧
    processRow "T" "C" "P" oneSubRow = .error .indexError :=
  ⟨rfl, rfl, rfl⟩

/-- Claim C1, amended: a result row is silently skipped (no record, no
error) exactly when its kata label is empty or it has NO nested sub-row at
all (the guard is `len(...) > 0`, not "two sub-rows"); and removing such a
skipped row from a row list leaves the emitted record stream unchanged. -/
theorem wkf_C1_amended (t c p : String) (row b0 td2 : Node) (l1 l2 : List Node)
    (hb : (findAll row "b" none).get? 0 = some b0)
    (htd : (findAll row "td" none).get? 2 = some td2) :
    (processRow t c p row = .ok none ↔
      (nodeText td2 = "" ∨ findAll row "tr" none = [])) ∧
    (processRow t c p row = .ok none →
      processRows t c p (l1 ++ row :: l2) = processRows t c p (l1 ++ l2)) :=
  ⟨processRow_skip t c p row b0 td2 hb htd,
   fun h => processRows_skip t c p row h l1 l2⟩

/-- Witness for the amended claim C1, at the concrete empty-kata row
`skipRow` spliced between a complete row and nothing. -/
theorem wkf_C1_witness :
    (processRow "T" "C" "P" skipRow = .ok none ↔
      (nodeText (tdText "") = "" ∨ findAll skipRow "tr" none = [])) ∧
    (processRow "T" "C" "P" skipRow = .ok none →
      processRows "T" "C" "P" ([goodRow] ++ skipRow :: []) =
        processRows "T" "C" "P" ([goodRow] ++ [])) :=
  wkf_C1_amended "T" "C" "P" skipRow (Node.elem "b" [] [] [Node.textN "Zoe Ng (Oslo, NOR)"])
    (tdText "") [goodRow] [] rfl rfl

/-- Claim C2, counterexample: a row whose sub-rows carry three cells each is
accepted and yields a record with only TWO technical (and two athletic)
grade fields — the `[1:8]` slices at `data_utils.py` line 84 clamp instead
of guaranteeing seven entries. -/
theorem wkf_C2_counterexample :
    processRow "T" "C" "P" shortRow = .ok (some shortRec) ∧
    shortRec.technicalGrades.length = 2 ∧ shortRec.technicalGrades.length ≠ 7 ∧
    shortRec.athleticGrades.length = 2 :=
  ⟨rfl, rfl, by decide, rfl⟩

/-- Claim C2, amended: every emitted record has a non-empty kata field, and
carries exactly `min 7 (k − 1)` technical (resp. athletic) grade fields
where `k` is the cell count of the corresponding grade sub-row — which is 7
exactly when the sub-row carries at least 8 cells. -/
theorem wkf_C2_amended (t c p : String) (row tr0 tr1 : Node) (r : PerfRecord)
    (h : processRow t c p row = .ok (some r))
    (h0 : (findAll row "tr" none).get? 0 = some tr0)
    (h1 : (findAll row "tr" none).get? 1 = some tr1) :
    r.kata ≠ "" ∧
    r.technicalGrades.length = min 7 ((findAll tr0 "td" none).length - 1) ∧
    r.athleticGrades.length = min 7 ((findAll tr1 "td" none).length - 1) := by
  obtain ⟨b0', td2', tr0', tr1', sLast, hb', htd', h0', h1', hsl, hsc, htg, hag,
    _, _, _, _, _, hkata, hkne⟩ := processRow_emit t c p row r h
  have he0 : tr0' = tr0 := Option.some.inj (h0'.symm.trans h0)
  have he1 : tr1' = tr1 := Option.some.inj (h1'.symm.trans h1)
  subst he0
  subst he1
  refine ⟨hkne, ?_, ?_⟩
  · have := convGradeE_length _ _ htg
    simpa [pySlice, Nat.min_comm] using this
  · have := convGradeE_length _ _ hag
    simpa [pySlice, Nat.min_comm] using this

/-- Witness for the amended claim C2, at the complete row `goodRow` whose
sub-rows carry nine cells each. -/
theorem wkf_C2_witness :
    goodRec.kata ≠ "" ∧
    goodRec.technicalGrades.length = min 7 ((findAll goodTECRow "td" none).length - 1) ∧
    goodRec.athleticGrades.length = min 7 ((findAll goodATHRow "td" none).length - 1) :=
  wkf_C2_amended "T" "C" "P" goodRow goodTECRow goodATHRow goodRec rfl rfl rfl

/-- Claim C3, confirmed: for every emitted record, the score equals the
result of applying the grade-cell conversion (comma-to-dot replacement,
then float parsing) to the text of the row's last cell.  The code parses
that text without the replacement, but any text it accepts is comma-free,
so the claimed conversion yields the same value for every record that is
actually emitted. -/
theorem wkf_C3_theorem (t c p : String) (row : Node) (r : PerfRecord) (sLast : Node)
    (h : processRow t c p row = .ok (some r))
    (hlast : (findAll row "td" none).getLast? = some sLast) :
    convGrade (nodeText sLast) = some r.score := by
  obtain ⟨b0', td2', tr0', tr1', sLast', hb', htd', h0', h1', hsl, hsc, htg, hag,
    _, _, _, _, _, _, _⟩ := processRow_emit t c p row r h
  have he : sLast' = sLast := Option.some.inj (hsl.symm.trans hlast)
  subst he
  exact convGrade_of_parse _ _ hsc

/-- Witness for claim C3 at the complete row `goodRow`, whose last cell
reads `"25.5"`. -/
theorem wkf_C3_witness :
    convGrade (nodeText (tdText "25.5")) = some goodRec.score :=
  wkf_C3_theorem "T" "C" "P" goodRow goodRec (tdText "25.5") rfl rfl

/-- Claim C4, counterexample: the dot-decimal string `"8.5"` is not in
decimal-comma form, yet the conversion step does not fail on it — it
produces 8.5 (`float(s.replace(",", "."))` accepts any float literal). -/
theorem wkf_C4_counterexample :
    isCommaDecimal "8.5" = false ∧ convGrade "8.5" = some (mkRat 17 2) :=
  ⟨by decide, by decide⟩

/-- Claim C4, amended: the conversion maps `"8,5"` to 8.5 and succeeds on
every decimal-comma string; but it does not fail on every other form — it
also accepts dot-decimal and integer literals, failing only on strings
that are not float literals after the comma-to-dot replacement. -/
theorem wkf_C4_amended :
    convGrade "8,5" = some (mkRat 17 2) ∧
    (∀ s : String, isCommaDecimal s = true → (convGrade s).isSome = true) ∧
    convGrade "8.5" = some (mkRat 17 2) ∧ convGrade "85" = some 85 ∧
    convGrade "abc" = none ∧ convGrade "" = none ∧ convGrade "8,5,2" = none :=
  ⟨by decide, fun s h => convGrade_isSome_of_commaDecimal s h,
   by decide, by decide, by decide, by decide, by decide⟩

/-- Witness for the amended claim C4 at the decimal-comma string `"12,75"`. -/
theorem wkf_C4_witness :
    isCommaDecimal "12,75" = true ∧ (convGrade "12,75").isSome = true :=
  ⟨by decide, wkf_C4_amended.2.1 "12,75" (by decide)⟩

/-- Claim C5, counterexample: on a header reading exactly `"AB - CD"` (no
trailing junk), the parser does not strip trailing punctuation/whitespace
and split — it unconditionally removes the final TWO characters (`[:-2]`
at `data_utils.py` line 28), returning category `""` instead of `"CD"`. -/
theorem wkf_C5_counterexample :
    nodeText (newsHdr "AB - CD") = "AB - CD" ∧
    category_data pageBareHeader = .ok ([], "AB", "") :=
  ⟨rfl, rfl⟩

/-- Claim C5, amended: the parser removes the final two characters of the
header text unconditionally (whatever they are), then splits at the last
`" - "`; when that split yields two parts, it returns them as tournament
and category together with the pool tables. -/
theorem wkf_C5_amended (page hd : Node) (t c : String)
    (hh : (findAll page "div" (some ["newsheader"])).get? 0 = some hd)
    (hs : rsplit1 (pyDropLast (nodeText hd) 2) " - " = [t, c]) :
    category_data page = .ok (findAll page "table" (some ["moduletable_draw"]), t, c) :=
  category_data_ok page hd t c hh hs

/-- Witness for the amended claim C5 at the full page `goodPage`, whose
header carries two trailing junk characters. -/
theorem wkf_C5_witness :
    category_data goodPage =
      .ok (findAll goodPage "table" (some ["moduletable_draw"]),
        "Karate1 Premier League - Salzburg 2020", "Female Kata") :=
  wkf_C5_amended goodPage
    (newsHdr "Karate1 Premier League - Salzburg 2020 - Female Kataxy")
    "Karate1 Premier League - Salzburg 2020" "Female Kata" rfl (by decide)

/-- Claim C6, counterexample: for the identity text
`"Ann (Bo) (Rome, ITA)"` — of the form `"<name> (<city>, <country>)"` with
name `"Ann (Bo)"` — the emitted name is the prefix before the LAST `" ("`,
not the first (the claim's reading would give `"Ann"`); and the emitted
nationality is `" ITA"`, which carries a leading space and is not a
3-letter code. -/
theorem wkf_C6_counterexample :
    processRow "T" "C" "P" parenRow = .ok (some parenRec) ∧
    parenRec.name = "Ann (Bo)" ∧ parenRec.name ≠ "Ann" ∧
    parenRec.nationality = " ITA" ∧ parenRec.nationality.length ≠ 3 :=
  ⟨rfl, rfl, by decide, rfl, by decide⟩

/-- Claim C6, amended: for an emitted record whose bold identity text is
`n ++ " (" ++ city ++ ", " ++ nat ++ ")"`, with `" ("` not occurring after
the split point and `nat` comma-free, the name field is the prefix before
the LAST `" ("` (the full `n`, even when `n` itself contains `" ("`), and
the nationality field is the text after the last comma with the trailing
parenthesis removed — i.e. `" " ++ nat`, retaining the leading space, not
the bare 3-letter code. -/
theorem wkf_C6_amended (t c p n city nat : String) (row b0 : Node) (r : PerfRecord)
    (h : processRow t c p row = .ok (some r))
    (hb : (findAll row "b" none).get? 0 = some b0)
    (htext : nodeText b0 = n ++ " (" ++ (city ++ ", " ++ nat ++ ")"))
    (h1 : pyIn " (" (city ++ ", " ++ nat ++ ")") = false)
    (h2 : pyIn "," nat = false) :
    r.name = n ∧ r.nationality = " " ++ nat := by
  obtain ⟨b0', td2', tr0', tr1', sLast, hb', htd', h0', h1', hsl, hsc, htg, hag,
    _, _, _, hname, hnat, _, _⟩ := processRow_emit t c p row r h
  have hbeq : b0' = b0 := Option.some.inj (hb'.symm.trans hb)
  subst hbeq
  rw [htext] at hname hnat
  constructor
  · rw [hname]
    exact name_of_shape n _ h1
  · rw [hnat]
    have hre : n ++ " (" ++ (city ++ ", " ++ nat ++ ")") =
        (n ++ " (" ++ city) ++ "," ++ (" " ++ nat ++ ")") := by
      apply strExt
      simp only [String.data_append]
      simp [List.append_assoc, List.cons_append, List.singleton_append]
    rw [hre]
    exact nationality_of_shape (n ++ " (" ++ city) nat h2

/-- Witness for the amended claim C6 at the complete row `goodRow`, whose
identity text is `"Ann Lee (Rome, ITA)"`. -/
theorem wkf_C6_witness :
    goodRec.name = "Ann Lee" ∧ goodRec.nationality = " " ++ "ITA" :=
  wkf_C6_amended "T" "C" "P" "Ann Lee" "Rome" "ITA" goodRow
    (Node.elem "b" [] [] [Node.textN "Ann Lee (Rome, ITA)"]) goodRec
    rfl rfl (by decide) (by decide) (by decide)

/-- Claim C7, confirmed: on a draws-index page whose category-link anchors
(after dropping the last three) all carry title and href attributes, the
collector returns exactly the links obtained by taking all
`a.datalink2` anchors, removing the last three unconditionally, keeping
those whose title contains "Male Kata" or "Female Kata", and prefixing
each kept href with the fixed base path — in document order, without
de-duplication. -/
theorem wkf_C7_theorem (page : Node)
    (h : ∀ l ∈ dropLast3 (findAll page "a" (some ["datalink2"])),
      (l.attr? "title").isSome = true ∧ (l.attr? "href").isSome = true) :
    get_rounds_urls page =
      .ok (((dropLast3 (findAll page "a" (some ["datalink2"]))).filter
          (fun l => hasKata ((l.attr? "title").getD ""))).map
        (fun l => baseUrl ++ (l.attr? "href").getD "")) := by
  unfold get_rounds_urls
  exact collectUrls_ok _ h

/-- Witness for claim C7 at the six-link page `drawsPage`: the last three
links are dropped positionally (including the kata link `u4`), and of the
remainder the two kata-titled links are kept and prefixed. -/
theorem wkf_C7_witness :
    get_rounds_urls drawsPage =
      .ok (((dropLast3 (findAll drawsPage "a" (some ["datalink2"]))).filter
          (fun l => hasKata ((l.attr? "title").getD ""))).map
        (fun l => baseUrl ++ (l.attr? "href").getD "")) ∧
    get_rounds_urls drawsPage =
      .ok ["https://www.sportdata.org/wkf/set-online/u1",
           "https://www.sportdata.org/wkf/set-online/u3"] :=
  ⟨wkf_C7_theorem drawsPage (by decide), rfl⟩

/-- Claim C8, counterexample: a category page with a well-formed header but
NO pool table does not make the parser fail — `category_data` returns a
result with an empty table list. -/
theorem wkf_C8_counterexample :
    findAll pageNoTables "table" (some ["moduletable_draw"]) = [] ∧
    category_data pageNoTables = .ok ([], "AB", "CD") :=
  ⟨rfl, rfl⟩

/-- Claim C8, amended: the parser fails (IndexError) when the header block
is absent; but the absence of pool tables is NOT detected — whenever the
header is present and its truncated text splits at `" - "`, the parser
returns successfully, with whatever pool tables the page has (possibly
none). -/
theorem wkf_C8_amended (page : Node) :
    (findAll page "div" (some ["newsheader"]) = [] →
      category_data page = .error .indexError) ∧
    (∀ hd t c, (findAll page "div" (some ["newsheader"])).get? 0 = some hd →
      rsplit1 (pyDropLast (nodeText hd) 2) " - " = [t, c] →
      category_data page = .ok (findAll page "table" (some ["moduletable_draw"]), t, c)) :=
  ⟨category_data_noheader page,
   fun hd t c hh hs => category_data_ok page hd t c hh hs⟩

/-- Witness for the amended claim C8: the headerless page raises, and the
table-less page succeeds with an empty pool list. -/
theorem wkf_C8_witness :
    category_data pageNoHeader = .error .indexError ∧
    category_data pageNoTables =
      .ok (findAll pageNoTables "table" (some ["moduletable_draw"]), "AB", "CD") :=
  ⟨(wkf_C8_amended pageNoHeader).1 rfl,
   (wkf_C8_amended pageNoTables).2 (newsHdr "AB - CDxy") "AB" "CD" rfl (by decide)⟩

/-- Claim C9, confirmed: the two copies of the extraction module are
behaviourally equivalent — on every page, fetch oracle, file oracle and
input strings, each corresponding pair of public functions returns the
same result. -/
theorem wkf_C9_theorem (page : Node) (fetch : String → Node) (rf : String → String)
    (u fn : String) :
    category_data page = DashCopy.category_data page ∧
    get_round_performances page = DashCopy.get_round_performances page ∧
    get_rounds_urls page = DashCopy.get_rounds_urls page ∧
    get_performances fetch u = DashCopy.get_performances fetch u ∧
    concat_tournaments fetch rf fn = DashCopy.concat_tournaments fetch rf fn :=
  ⟨rfl, (dashRound page).symm, (dashRoundsUrls page).symm,
   (dashGetPerformances fetch u).symm, (dashConcat fetch rf fn).symm⟩

/-- Claim C10, confirmed: when the round URL collector yields zero kata
links for an event page, `get_performances` raises (the modelled
`pandas.concat` ValueError on an empty list) instead of returning an empty
table; likewise `concat_tournaments` raises on an input file with zero
URL lines. -/
theorem wkf_C10_theorem (fetch : String → Node) (rf : String → String) (u fn : String)
    (h1 : get_rounds_urls (fetch u) = .ok [])
    (h2 : pySplitlines (rf fn) = []) :
    get_performances fetch u = .error .valueError ∧
    concat_tournaments fetch rf fn = .error .valueError := by
  constructor
  · unfold get_performances
    simp only [h1, ebind_ok]
    rfl
  · unfold concat_tournaments
    simp only [h2]
    rfl

/-- Witness for claim C10: oracles giving a page with no links and an empty
URL file. -/
theorem wkf_C10_witness :
    get_performances emptyFetch "d" = .error .valueError ∧
    concat_tournaments emptyFetch emptyRead "f" = .error .valueError :=
  wkf_C10_theorem emptyFetch emptyRead "d" "f" rfl rfl
